import Mathlib

/-!
Verification of the keprompt execution core against its specification.

The definitions below are shallow embeddings of the Python source under
`src/keprompt/`: the conversation model (`keprompt_prompt.py` / `AiPrompt`),
the provider tool-invocation loop (`AiProvider.py`), the vendor response
parsers (`AiAnthropic.py`, `AiGoogle.py`), the external function registry
(`keprompt_function_space.py`), the model cost formula (`AiRegistry.py`),
and the prompt-script virtual machine (`keprompt_vm.py`).  Side effects
(subprocess execution, file reading, HTTP) are modelled by explicit oracle
parameters and state passing; Python exceptions become `Except` values.
-/

namespace Keprompt

/-- One content part of a conversation message, mirroring the
`AiMessagePart` subclasses in `keprompt_prompt.py`: `AiTextPart`,
`AiImagePart`, `AiCall` and `AiResult`.  Tool-call `arguments` are a
structured mapping (string keys to string values in this model); `AiCall.id`
is optional exactly as in the Python constructor (`id: str | None = None`). -/
inductive AiMessagePart where
  | text (text : String)
  | image (filename : String) (mediaType : String) (fileContents : String)
  | call (name : String) (arguments : List (String × String)) (id : Option String)
  | result (name : String) (id : String) (result : String)
deriving DecidableEq, Repr

/-- A conversation message (`AiMessage` in `keprompt_prompt.py`): a role,
an ordered list of content parts, and a separate tool-call list (used by the
OpenAI-style providers). -/
structure AiMessage where
  role : String
  content : List AiMessagePart
  toolCalls : List AiMessagePart := []
deriving DecidableEq, Repr

/-- `AiPrompt.add_message` (keprompt_prompt.py lines 372-381): if the
conversation is non-empty and its last message has the same role, the new
content and tool calls are appended to that last message; otherwise a fresh
message is appended. -/
def addMessage (messages : List AiMessage) (role : String)
    (content : List AiMessagePart) (toolCalls : List AiMessagePart) : List AiMessage :=
  match messages.getLast? with
  | some last =>
      if last.role = role then
        messages.dropLast ++
          [{ last with content := last.content ++ content,
                       toolCalls := last.toolCalls ++ toolCalls }]
      else
        messages ++ [{ role := role, content := content, toolCalls := toolCalls }]
  | none => messages ++ [{ role := role, content := content, toolCalls := toolCalls }]

/-- A run of `add_message` calls that all use the same role: each element of
`ops` is the `(content, tool_calls)` pair of one call. -/
def addRun (messages : List AiMessage) (role : String)
    (ops : List (List AiMessagePart × List AiMessagePart)) : List AiMessage :=
  ops.foldl (fun ms op => addMessage ms role op.1 op.2) messages

/-- No two adjacent messages of a conversation share a role. -/
def NoAdjSameRole (messages : List AiMessage) : Prop :=
  messages.Chain' (fun a b => a.role ≠ b.role)

instance (messages : List AiMessage) : Decidable (NoAdjSameRole messages) :=
  inferInstanceAs (Decidable (List.Chain' _ _))

/-! ## Prompt statements that build the conversation (`keprompt_vm.py`) -/

/-- `StmtSystem.execute` (keprompt_vm.py lines 845-852).  The source passes
`role='assistant'` to `add_message` in both branches, although the statement
keyword is `.system` (see C7). -/
def stmtSystemExec (value : String) (conv : List AiMessage) : List AiMessage :=
  if value = "" then addMessage conv "assistant" [] []
  else addMessage conv "assistant" [AiMessagePart.text value] []

/-- `StmtUser.execute` (keprompt_vm.py lines 865-872). -/
def stmtUserExec (value : String) (conv : List AiMessage) : List AiMessage :=
  if value = "" then addMessage conv "user" [] []
  else addMessage conv "user" [AiMessagePart.text value] []

/-- `StmtAssistant.execute` (keprompt_vm.py lines 425-438); the debug
printing does not touch the conversation. -/
def stmtAssistantExec (value : String) (conv : List AiMessage) : List AiMessage :=
  if value = "" then addMessage conv "assistant" [] []
  else addMessage conv "assistant" [AiMessagePart.text value] []

/-- `StmtInclude.execute` (keprompt_vm.py lines 770-778): appends a Text
part holding the file contents to `messages[-1]`; on an empty conversation
the `messages[-1]` subscript raises IndexError, modelled as `Except.error`.
The file read itself is modelled by passing the file contents. -/
def stmtIncludeExec (fileContents : String) (conv : List AiMessage) :
    Except String (List AiMessage) :=
  match conv.getLast? with
  | none => .error "IndexError: list index out of range"
  | some last =>
      .ok (conv.dropLast ++
        [{ last with content := last.content ++ [AiMessagePart.text fileContents] }])

/-- `StmtImage.execute` (keprompt_vm.py lines 781-787): constructs an
`AiImagePart` from the file (filename, guessed media type and base64
payload are passed in, modelling the eager file read) and calls
`add_message(role="user", ...)`. -/
def stmtImageExec (filename mediaType fileContents : String)
    (conv : List AiMessage) : List AiMessage :=
  addMessage conv "user" [AiMessagePart.image filename mediaType fileContents] []

/-! ## The external function registry (`keprompt_function_space.py`) -/

/-- Python whitespace characters recognized by `str.strip()` (ASCII). -/
def pyWhitespace (c : Char) : Bool :=
  c = ' ' || c = '\t' || c = '\n' || c = '\r' || c = '\x0b' || c = '\x0c'

/-- `str.strip()` on a character list: drop whitespace from both ends. -/
def pyStripChars (cs : List Char) : List Char :=
  ((cs.dropWhile pyWhitespace).reverse.dropWhile pyWhitespace).reverse

/-- `str.strip()`. -/
def pyStrip (s : String) : String := String.mk (pyStripChars s.data)

/-- One discovered function definition, i.e. one entry of
`FunctionSpace.function_array`; `executable` models the `_executable` key
(`dict.get` of an absent key is `none`). -/
structure FnDef where
  name : String
  executable : Option String
deriving DecidableEq, Repr

/-- The outcome of one `subprocess.run`: exit code and captured output. -/
structure ProcResult where
  exitCode : Int
  stdout : String
  stderr : String

/-- The operating system as an oracle: (executable path, argv[1], stdin
text) to process result. -/
def ProcOracle := String → String → String → ProcResult

/-- A record of one spawned subprocess: (executable, argv[1], stdin). -/
def Spawn := String × String × String

instance : DecidableEq Spawn := inferInstanceAs (DecidableEq (String × String × String))

/-- `json.dumps` applied to the flat string-valued argument object (the
claims do not depend on the exact escaping, only on the encoding being a
fixed function of the arguments). -/
def jsonDumps (args : List (String × String)) : String :=
  "\x7b" ++ String.intercalate ", "
      (args.map (fun kv => "\"" ++ kv.1 ++ "\": \"" ++ kv.2 ++ "\"")) ++ "\x7d"

/-- Errors raised by `FunctionSpace.call`: both are plain `Exception`s in
the source, distinguished here by which `raise` produced them. -/
inductive CallErr where
  | unknownFunction (msg : String)
  | execError (msg : String)
deriving DecidableEq, Repr

/-- `FunctionSpace.call` (keprompt_function_space.py lines 173-203), with
subprocess execution given by the oracle and every spawned process recorded
in the first component.  The executable is looked up as the `_executable`
of the first definition whose name matches; a missing name raises before
any subprocess runs.  A non-zero exit raises `Exception(stderr.strip() or
"Unknown error")`, which the surrounding `except` re-wraps into
`Exception(f"Error executing function '{name}': {e}")`. -/
def functionSpaceCall (functionArray : List FnDef) (os : ProcOracle)
    (functionName : String) (arguments : List (String × String)) :
    List Spawn × Except CallErr String :=
  match (functionArray.find? (fun d => d.name = functionName)).bind FnDef.executable with
  | none => ([], .error (.unknownFunction ("Unknown function '" ++ functionName ++ "'")))
  | some executable =>
      let stdin := jsonDumps arguments
      let r := os executable functionName stdin
      if r.exitCode = 0 then
        ([(executable, functionName, stdin)], .ok (pyStrip r.stdout))
      else
        let inner := if pyStrip r.stderr = "" then "Unknown error" else pyStrip r.stderr
        ([(executable, functionName, stdin)],
         .error (.execError ("Error executing function '" ++ functionName ++ "': " ++ inner)))

/-! ## The tool-invocation loop (`AiProvider.py`) -/

/-- The `DefinedFunctions` mapping as an abstract registry: `none` models a
name absent from the dict; a present function may itself raise, modelled as
`Except.error` carrying the exception text. -/
def FnRegistry := String → Option (List (String × String) → Except String String)

/-- Evaluation of `DefinedFunctions[part.name](**part.arguments)` inside the
`try` of `call_functions`: a missing name raises `KeyError(name)`, whose
`str()` is the name wrapped in single quotes; a present function may raise
with its own message. -/
def runDefinedFunction (reg : FnRegistry) (name : String)
    (args : List (String × String)) : Except String String :=
  match reg name with
  | none => .error ("'" ++ name ++ "'")
  | some f => f args

/-- The Result part produced for one `AiCall` by `call_functions`
(AiProvider.py lines 203-216): on success the result string, on any raise
the text `Error calling {str(e)}`, with `part.id or ""` as the id. -/
def resultForCall (reg : FnRegistry) (name : String)
    (args : List (String × String)) (id : Option String) : AiMessagePart :=
  match runDefinedFunction reg name args with
  | .ok r => .result name (id.getD "") r
  | .error e => .result name (id.getD "") ("Error calling " ++ e)

/-- `AiProvider.call_functions` (AiProvider.py lines 194-218): parts that
are not `AiCall` are skipped; each call is executed and converted to a
Result part; the collected results, when non-empty, form one tool-role
message, otherwise `None` is returned. -/
def callFunctions (reg : FnRegistry) (message : AiMessage) : Option AiMessage :=
  let toolResults := message.content.filterMap (fun part =>
    match part with
    | .call name args id => some (resultForCall reg name args id)
    | _ => none)
  if toolResults = [] then none
  else some { role := "tool", content := toolResults, toolCalls := [] }

/-- The `(name, arguments, id)` triples of the `AiCall` parts of a message,
in content order. -/
def callTriples (m : AiMessage) : List (String × List (String × String) × Option String) :=
  m.content.filterMap (fun part =>
    match part with
    | .call name args id => some (name, args, id)
    | _ => none)

/-- `AiProvider.call_llm` (AiProvider.py lines 121-191) with the provider
round-trip (`to_company_messages` / `prepare_request` / `make_api_request` /
`to_ai_message`) abstracted into `stub n`, the assistant message parsed from
the n-th API response, and the logging calls omitted (they do not touch the
loop state).  `fuel` bounds the unbounded `while do_again` loop; `none`
means the loop would still be running.  Each iteration appends the parsed
response, and then the tool message when `call_functions` produced one, to
the `responses` accumulator that `call_llm` returns (the same messages are
also appended to `prompt.messages`). -/
def callLlmLoop (reg : FnRegistry) (stub : Nat → AiMessage) :
    Nat → Nat → List AiMessage → Option (List AiMessage)
  | 0, _, _ => none
  | fuel + 1, callCount, responses =>
      let responseMsg := stub (callCount + 1)
      let responses := responses ++ [responseMsg]
      match callFunctions reg responseMsg with
      | none => some responses
      | some toolMsg => callLlmLoop reg stub fuel (callCount + 1) (responses ++ [toolMsg])

/-- `call_llm` entered with `call_count = 0` and no accumulated responses. -/
def callLlm (reg : FnRegistry) (stub : Nat → AiMessage) (fuel : Nat) :
    Option (List AiMessage) :=
  callLlmLoop reg stub fuel 0 []

/-! ## Cost and token accounting -/

/-- `AiModel.calculate_cost` (AiRegistry.py lines 77-78). -/
def calculateCost (inputCost outputCost : ℚ) (inputTokens outputTokens : ℕ) : ℚ :=
  inputTokens * inputCost + outputTokens * outputCost

/-- The VM token/cost counters together with the `AiPrompt` accumulators
`prompt.toks_in` / `prompt.toks_out`, as read and written by
`StmtExec.execute`. -/
structure VmCounters where
  toksIn : ℕ
  costIn : ℚ
  toksOut : ℕ
  costOut : ℚ
  total : ℚ
  promptToksIn : ℕ
  promptToksOut : ℕ
deriving DecidableEq, Repr

/-- One provider interaction inside `StmtExec.execute`: `prompt.ask` adds
the usage reported by the provider to the never-reset accumulators
`prompt.toks_in` / `prompt.toks_out` (keprompt_prompt.py lines 463-465,
490-491, 519-520), after which keprompt_vm.py lines 689-695 run
`toks_in += prompt.toks_in`, `cost_in += toks_in * model['input']`,
`toks_out += prompt.toks_out`, `cost_out += toks_out * model['output']`,
`total += cost_in + cost_out`, each right-hand side reading the
already-updated value. -/
def execInteraction (modelInput modelOutput : ℚ) (s : VmCounters)
    (reportedIn reportedOut : ℕ) : VmCounters :=
  let promptToksIn := s.promptToksIn + reportedIn
  let promptToksOut := s.promptToksOut + reportedOut
  let toksIn := s.toksIn + promptToksIn
  let costIn := s.costIn + toksIn * modelInput
  let toksOut := s.toksOut + promptToksOut
  let costOut := s.costOut + toksOut * modelOutput
  let total := s.total + costIn + costOut
  ⟨toksIn, costIn, toksOut, costOut, total, promptToksIn, promptToksOut⟩

/-- The counter effect of `.exec` statements whose tool-invocation loop
performs the given provider interactions, each reporting an
(input, output) token usage pair. -/
def runExecCounters (modelInput modelOutput : ℚ)
    (interactions : List (ℕ × ℕ)) (s : VmCounters) : VmCounters :=
  interactions.foldl
    (fun st io => execInteraction modelInput modelOutput st io.1 io.2) s

/-! ## Vendor response parsing (`AiAnthropic.py`, `AiGoogle.py`) -/

/-- One element of an Anthropic response's `content` array as a JSON-ish
record: the `type` tag plus the fields the parser reads for the recognized
tags (defaulted for parts whose tag makes the code never read them). -/
structure AnthropicPart where
  ptype : String
  text : String := ""
  id : String := ""
  name : String := ""
  input : List (String × String) := []
deriving DecidableEq, Repr

/-- `AiAnthropic.to_ai_message` (AiAnthropic.py lines 36-46): builds an
assistant message from `response.get("content", [])`, turning `"text"`
parts into Text parts and `"tool_use"` parts into Call parts; a part with
any other `type` matches neither branch and contributes nothing. -/
def anthropicToAiMessage (content : List AnthropicPart) : AiMessage :=
  { role := "assistant",
    content := content.filterMap (fun part =>
      if part.ptype = "text" then some (AiMessagePart.text part.text)
      else if part.ptype = "tool_use" then
        some (AiMessagePart.call part.name part.input (some part.id))
      else none),
    toolCalls := [] }

/-- The `functionCall` object of a Google response part; `args` and `id`
are read with `.get` defaults. -/
structure GoogleFunctionCall where
  name : String
  args : List (String × String) := []
  id : String := ""
deriving DecidableEq, Repr

/-- One element of `candidates[0].content.parts`: the parser branches on
which key the part carries; a part carrying neither a `text` nor a
`functionCall` key is an unrecognized part type. -/
structure GooglePart where
  text : Option String := none
  functionCall : Option GoogleFunctionCall := none
deriving DecidableEq, Repr

/-- `AiGoogle.to_ai_message` (AiGoogle.py lines 30-42): raises when
`candidates` is empty; otherwise builds an assistant message from the first
candidate's parts, keeping `text` and `functionCall` parts and dropping any
part that carries neither key. -/
def googleToAiMessage (candidates : List (List GooglePart)) :
    Except String AiMessage :=
  match candidates with
  | [] => .error "No response candidates received from Google API"
  | parts :: _ =>
      .ok { role := "assistant",
            content := parts.filterMap (fun part =>
              match part.text with
              | some t => some (AiMessagePart.text t)
              | none =>
                  match part.functionCall with
                  | some fc => some (AiMessagePart.call fc.name fc.args (some fc.id))
                  | none => none),
            toolCalls := [] }

/-! ## Prompt-script parsing (`VM.parse_prompt`, keprompt_vm.py) -/

instance {ε α : Type} [DecidableEq ε] [DecidableEq α] : DecidableEq (Except ε α) :=
  fun a b =>
    match a, b with
    | .error e, .error f =>
        if h : e = f then isTrue (by rw [h])
        else isFalse (fun hh => h (by cases hh; rfl))
    | .ok x, .ok y =>
        if h : x = y then isTrue (by rw [h])
        else isFalse (fun hh => h (by cases hh; rfl))
    | .error _, .ok _ => isFalse (fun hh => by cases hh)
    | .ok _, .error _ => isFalse (fun hh => by cases hh)

/-- The statement keyword table `StatementTypes` (keprompt_vm.py lines
876-890). -/
def keywordTable : List String :=
  [".#", ".assistant", ".clear", ".cmd", ".debug", ".exec", ".exit",
   ".image", ".include", ".llm", ".system", ".text", ".user"]

/-- One parsed statement, keyword and raw value (`StmtPrompt.keyword` /
`StmtPrompt.value`; which `StmtPrompt` subclass is instantiated is a pure
function of the keyword and plays no role in parsing). -/
structure Stmt where
  keyword : String
  value : String
deriving DecidableEq, Repr

/-- `line.split(' ', 1)` when the line contains a space: the text before
the first space and the text after it. -/
def splitFirstSpace : List Char → Option (List Char × List Char)
  | [] => none
  | c :: rest =>
      if c = ' ' then some ([], rest)
      else (splitFirstSpace rest).map (fun p => (c :: p.1, p.2))

/-- The keyword/value split of one stripped, non-blank line
(keprompt_vm.py lines 268-280): a line not starting with a dot is a
`.text` line; a dotted line with a space splits at the first space, one
without a space is keyword-only; a dotted keyword absent from the keyword
table falls back to a `.text` line holding the whole line. -/
def lexLine (line : String) : Stmt :=
  match line.data with
  | [] => ⟨".text", line⟩
  | c :: _ =>
      if c = '.' then
        match splitFirstSpace line.data with
        | some p =>
            if String.mk p.1 ∈ keywordTable then ⟨String.mk p.1, String.mk p.2⟩
            else ⟨".text", line⟩
        | none =>
            if line ∈ keywordTable then ⟨line, ""⟩
            else ⟨".text", line⟩
      else ⟨".text", line⟩

/-- The enumerate loop of `parse_prompt` (keprompt_vm.py lines 263-293) as
recursion over the remaining lines, carrying the 0-based line number and
the statements built so far.  A continuation `.text` line on a later line
merges into the last statement when that statement is of a text-bearing
kind; the `statements[-1]` subscript raises (wrapped into
`StmtSyntaxError`) when no statement exists yet. -/
def parseBody : List String → Nat → List Stmt → Except String (List Stmt)
  | [], _, stmts => .ok stmts
  | line :: rest, lno, stmts =>
      if pyStrip line = "" then parseBody rest (lno + 1) stmts
      else if lno ≠ 0 ∧ (lexLine (pyStrip line)).keyword = ".text" then
        match stmts.getLast? with
        | none => .error "IndexError: list index out of range"
        | some last =>
            if last.keyword ∈ [".assistant", ".system", ".text", ".user"] then
              parseBody rest (lno + 1)
                (stmts.dropLast ++
                  [⟨last.keyword,
                    pyStrip (last.value ++ "\n" ++ (lexLine (pyStrip line)).value)⟩])
            else parseBody rest (lno + 1) (stmts ++ [lexLine (pyStrip line)])
      else parseBody rest (lno + 1) (stmts ++ [lexLine (pyStrip line)])

/-- The trailing-pop loop `while lines[-1][0].strip() == '': lines.pop()`
(keprompt_vm.py line 261), working from the last line backwards (hence on
the reversed list): a line whose first character is whitespace is popped;
popping every line, or reaching an empty line, ends in the IndexError of
`lines[-1]` / `line[0]`, modelled as `none`. -/
def popTrailingRev : List String → Option (List String)
  | [] => none
  | l :: rest =>
      match l.data with
      | [] => none
      | c :: _ => if pyWhitespace c then popTrailingRev rest else some (l :: rest)

/-- The trailing-pop loop on the line list in file order. -/
def popTrailing (lines : List String) : Option (List String) :=
  (popTrailingRev lines.reverse).map List.reverse

/-- `VM.parse_prompt` (keprompt_vm.py lines 248-299) on the line list
returned by `readlines`: pop trailing lines, run the parsing loop, then
append the implicit `.exec` statement exactly when the first five
characters of the last remaining line are not ".exec"
(`lines[-1][0:5] != '.exec'`, line 296). -/
def parsePrompt (lines : List String) : Except String (List Stmt) :=
  match popTrailing lines with
  | none => .error "IndexError: list index out of range"
  | some ls =>
      match parseBody ls 0 [] with
      | .error e => .error e
      | .ok stmts =>
          match ls.getLast? with
          | none => .error "IndexError: list index out of range"
          | some lastLine =>
              if lastLine.data.take 5 = ".exec".data then .ok stmts
              else .ok (stmts ++ [⟨".exec", ""⟩])

/-! ## Variable substitution (`VM.substitute`, keprompt_vm.py lines 220-246) -/

/-- A value stored in the VM variable dictionary `vdict`: a string or a
nested string-keyed dictionary. -/
inductive VVal where
  | str (s : String)
  | dict (entries : List (String × VVal))

mutual
/-- `str(value)` applied to the looked-up value: a string renders as
itself, a dictionary as its Python repr (escape sequences inside a repr
are not modelled; no claim depends on them). -/
def render : VVal → List Char
  | .str s => s.data
  | .dict es => '{' :: renderEntries es ++ ['}']

/-- The comma-separated entries of a Python dict repr. -/
def renderEntries : List (String × VVal) → List Char
  | [] => []
  | [(k, v)] => renderKV k v
  | (k, v) :: rest => renderKV k v ++ ',' :: ' ' :: renderEntries rest

/-- One quoted-key/value pair of a Python dict repr. -/
def renderKV (k : String) (v : VVal) : List Char :=
  '\'' :: k.data ++ '\'' :: ':' :: ' ' :: reprVal v

/-- Python repr of a nested value (strings quoted, unlike at top level). -/
def reprVal : VVal → List Char
  | .str s => '\'' :: s.data ++ ['\'']
  | .dict es => '{' :: renderEntries es ++ ['}']
end

/-- Split at the first occurrence of the two-character pattern `a b`
(`text.split(']>', 1)` in the source, restricted to the case where the
pattern occurs): the text before and the text after that occurrence. -/
def splitAtFirst2 (a b : Char) : List Char → Option (List Char × List Char)
  | [] => none
  | [_] => none
  | c :: d :: rest =>
      if c = a ∧ d = b then some ([], rest)
      else (splitAtFirst2 a b (d :: rest)).map (fun p => (c :: p.1, p.2))

/-- Split at the last occurrence of the pattern (`front.rfind('<[')`
followed by the two slices the source takes around it). -/
def splitAtLast2 (a b : Char) : List Char → Option (List Char × List Char)
  | [] => none
  | [_] => none
  | c :: d :: rest =>
      match splitAtLast2 a b (d :: rest) with
      | some p => some (c :: p.1, p.2)
      | none => if c = a ∧ d = b then some ([], rest) else none

/-- `variable_name.split('.')`: dotted-path segments, empty segments kept
exactly as Python produces them. -/
def splitOnDot : List Char → List (List Char)
  | [] => [[]]
  | c :: rest =>
      if c = '.' then [] :: splitOnDot rest
      else
        match splitOnDot rest with
        | [] => [[c]]
        | seg :: segs => (c :: seg) :: segs

/-- The loop `for key in keys: value = value[key]`: a missing dictionary
key raises KeyError and subscripting a string with a string key raises
TypeError; the source catches both and raises its undefined-variable
ValueError, so both are modelled as `none`. -/
def lookupPath : VVal → List (List Char) → Option VVal
  | v, [] => some v
  | .str _, _ :: _ => none
  | .dict es, k :: rest =>
      match es.lookup (String.mk k) with
      | some v => lookupPath v rest
      | none => none

/-- The outcome of one iteration of the `while ']>' in text` loop. -/
inductive SubstRes where
  | done (t : List Char)
  | cont (t : List Char)
  | err (keys : List (List Char))
deriving DecidableEq

/-- One iteration of `VM.substitute` (keprompt_vm.py lines 220-246):
`done` covers both loop exit (no end marker left) and the `return text`
paths taken when the front holds no begin marker; `err` is the ValueError
raised for an undefined variable, carrying the split key path; `cont`
carries the text with the innermost placeholder replaced by
`str(value)`. -/
def substStep (d : List (String × VVal)) (t : List Char) : SubstRes :=
  match splitAtFirst2 ']' '>' t with
  | none => .done t
  | some frontBack =>
      match splitAtLast2 '<' '[' frontBack.1 with
      | none => .done t
      | some preName =>
          match lookupPath (.dict d) (splitOnDot preName.2) with
          | none => .err (splitOnDot preName.2)
          | some v => .cont (preName.1 ++ render v ++ frontBack.2)

/-- The whole `while` loop, with fuel bounding the iteration count: `none`
means the loop is still running after `fuel` iterations. -/
def substFuel (d : List (String × VVal)) :
    Nat → List Char → Option (Except (List (List Char)) (List Char))
  | 0, _ => none
  | fuel + 1, t =>
      match substStep d t with
      | .done t2 => some (.ok t2)
      | .err keys => some (.error keys)
      | .cont t2 => substFuel d fuel t2

/-- Occurrence count of the two-character pattern `a b` (the patterns used
here have two distinct characters, so occurrences cannot overlap). -/
def count2 (a b : Char) : List Char → Nat
  | c :: d :: rest => (if c = a ∧ d = b then 1 else 0) + count2 a b (d :: rest)
  | _ => 0

/-- A character list free of all four placeholder marker characters. -/
def MarkerFree (cs : List Char) : Prop :=
  ∀ c ∈ cs, c ≠ '<' ∧ c ≠ '[' ∧ c ≠ ']' ∧ c ≠ '>'

instance (cs : List Char) : Decidable (MarkerFree cs) :=
  inferInstanceAs (Decidable (∀ c ∈ cs, _))

/-- Every value reachable from the dictionary by dotted-path lookup renders
to a non-empty string free of the placeholder marker characters. -/
def RenderSafe (d : List (String × VVal)) : Prop :=
  ∀ keys v, lookupPath (.dict d) keys = some v →
    render v ≠ [] ∧ MarkerFree (render v)

/-- A complete placeholder somewhere in the text: an occurrence of the
begin marker followed, further right, by an occurrence of the end marker.
When the text holds no such pattern, every path of the loop body returns
the text unchanged, whatever the variable mapping. -/
def HasPlaceholder (t : List Char) : Prop :=
  ∃ u v w, t = u ++ '<' :: '[' :: v ++ ']' :: '>' :: w

/-! ## Theorems -/

theorem addMessage_of_last_ne (conv : List AiMessage) (role : String)
    (c t : List AiMessagePart)
    (h : ∀ m, conv.getLast? = some m → m.role ≠ role) :
    addMessage conv role c t = conv ++ [{ role := role, content := c, toolCalls := t }] := by
  unfold addMessage
  cases hl : conv.getLast? with
  | none => rfl
  | some m => simp [h m hl]

theorem addMessage_concat_same (xs : List AiMessage) (role : String)
    (c t c2 t2 : List AiMessagePart) :
    addMessage (xs ++ [{ role := role, content := c, toolCalls := t }]) role c2 t2
      = xs ++ [{ role := role, content := c ++ c2, toolCalls := t ++ t2 }] := by
  unfold addMessage
  rw [List.getLast?_concat]
  simp

theorem addRun_concat (xs : List AiMessage) (role : String)
    (c t : List AiMessagePart)
    (ops : List (List AiMessagePart × List AiMessagePart)) :
    addRun (xs ++ [{ role := role, content := c, toolCalls := t }]) role ops
      = xs ++ [{ role := role,
                 content := c ++ (ops.map Prod.fst).flatten,
                 toolCalls := t ++ (ops.map Prod.snd).flatten }] := by
  induction ops generalizing c t with
  | nil => simp [addRun]
  | cons op rest ih =>
      simp only [addRun, List.foldl_cons] at *
      rw [addMessage_concat_same, ih]
      simp

theorem addMessage_noAdj (conv : List AiMessage) (role : String)
    (c t : List AiMessagePart) (h : NoAdjSameRole conv) :
    NoAdjSameRole (addMessage conv role c t) := by
  unfold addMessage
  cases hl : conv.getLast? with
  | none =>
      have : conv = [] := by
        cases conv with
        | nil => rfl
        | cons a l => simp [List.getLast?_concat, List.getLast?] at hl
      subst this
      simp [NoAdjSameRole]
  | some m =>
      have hconv : conv = conv.dropLast ++ [m] := by
        conv_lhs => rw [← List.dropLast_append_getLast? m hl]
      by_cases hr : m.role = role
      · simp only [hr, if_true]
        unfold NoAdjSameRole at h ⊢
        rw [hconv, List.chain'_append] at h
        rw [List.chain'_append]
        refine ⟨h.1, by simp, ?_⟩
        intro x hx y hy
        simp only [List.head?_cons, Option.mem_def, Option.some.injEq] at hy
        subst hy
        have := h.2.2 x hx m (by simp)
        rw [hr] at this
        simpa using this
      · simp only [hr, if_false]
        unfold NoAdjSameRole at h ⊢
        rw [List.chain'_append]
        refine ⟨h, by simp, ?_⟩
        intro x hx y hy
        simp only [List.head?_cons, Option.mem_def, Option.some.injEq] at hy
        have hx' : x = m := by
          rw [hl] at hx; exact Option.some.inj hx.symm ▸ rfl
        subst hx'
        simp [← hy, hr]

/-- C2: for any sequence of `add_message` operations with one shared role,
starting from a conversation whose last message (if any) has a different
role, the conversation gains exactly one message holding the concatenation
of all the operations' parts in call order; moreover `add_message` preserves
the no-two-adjacent-same-role invariant. -/
theorem c2_add_message_merge (conv : List AiMessage) (role : String)
    (ops : List (List AiMessagePart × List AiMessagePart))
    (hlast : ∀ m, conv.getLast? = some m → m.role ≠ role)
    (hne : ops ≠ []) :
    addRun conv role ops
      = conv ++ [{ role := role,
                   content := (ops.map Prod.fst).flatten,
                   toolCalls := (ops.map Prod.snd).flatten }] ∧
    (∀ (conv2 : List AiMessage) (r : String) (c t : List AiMessagePart),
        NoAdjSameRole conv2 → NoAdjSameRole (addMessage conv2 r c t)) := by
  constructor
  · cases ops with
    | nil => exact absurd rfl hne
    | cons op rest =>
        simp only [addRun, List.foldl_cons]
        rw [addMessage_of_last_ne conv role op.1 op.2 hlast]
        have := addRun_concat conv role op.1 op.2 rest
        simp only [addRun] at this
        rw [this]
        simp
  · intro conv2 r c t h
    exact addMessage_noAdj conv2 r c t h

/-- Witness for C2 at a concrete input: two user-role text additions to an
empty conversation merge into a single user message with both parts. -/
theorem c2_add_message_merge_witness :
    addRun [] "user" [([AiMessagePart.text "a"], []), ([AiMessagePart.text "b"], [])]
      = [{ role := "user",
           content := [AiMessagePart.text "a", AiMessagePart.text "b"],
           toolCalls := [] }] :=
  (c2_add_message_merge [] "user"
      [([AiMessagePart.text "a"], []), ([AiMessagePart.text "b"], [])]
      (by intro m hm; simp at hm) (by simp)).1.trans (by simp)

/-- C7, evaluated at the failing input: executing `.system You are helpful.`
on an empty conversation produces a message whose role is `assistant`, not
`system` (the `StmtSystem.execute` branches pass `role='assistant'`), while
`.user` and `.assistant` statements produce their correct roles. -/
theorem c7_statement_roles :
    stmtSystemExec "You are helpful." []
      = [{ role := "assistant", content := [AiMessagePart.text "You are helpful."],
           toolCalls := [] }] ∧
    (stmtSystemExec "You are helpful." []).head?.map AiMessage.role ≠ some "system" ∧
    stmtUserExec "hi" []
      = [{ role := "user", content := [AiMessagePart.text "hi"], toolCalls := [] }] ∧
    stmtAssistantExec "ok" []
      = [{ role := "assistant", content := [AiMessagePart.text "ok"], toolCalls := [] }] := by
  decide

/-- Counterexample for C8: include-image does not append the Image part to
the last message — with a last message of role `assistant` it appends a
fresh `user` message instead — and on an empty conversation it succeeds
rather than failing. -/
theorem c8_image_counterexample :
    (stmtImageExec "cat.png" "image/png" "PAYLOAD"
        [{ role := "assistant", content := [AiMessagePart.text "hi"], toolCalls := [] }]
      ≠ [{ role := "assistant",
           content := [AiMessagePart.text "hi",
                       AiMessagePart.image "cat.png" "image/png" "PAYLOAD"],
           toolCalls := [] }]) ∧
    stmtImageExec "cat.png" "image/png" "PAYLOAD" []
      = [{ role := "user",
           content := [AiMessagePart.image "cat.png" "image/png" "PAYLOAD"],
           toolCalls := [] }] := by
  decide

/-- C8 (amended): include-file appends a Text part to the last message and
fails with IndexError when no message exists; include-image instead routes
the Image part through `add_message` with role `user` — it never fails on an
empty conversation, merges into the last message only when that message
already has role `user`, and otherwise appends a fresh user message. -/
theorem c8_include_and_image (s filename mt payload : String)
    (conv : List AiMessage) :
    stmtIncludeExec s [] = .error "IndexError: list index out of range" ∧
    (∀ last, conv.getLast? = some last →
        stmtIncludeExec s conv
          = .ok (conv.dropLast ++
              [{ last with content := last.content ++ [AiMessagePart.text s] }])) ∧
    stmtImageExec filename mt payload []
      = [{ role := "user",
           content := [AiMessagePart.image filename mt payload], toolCalls := [] }] ∧
    (∀ last, conv.getLast? = some last → last.role ≠ "user" →
        stmtImageExec filename mt payload conv
          = conv ++ [{ role := "user",
                       content := [AiMessagePart.image filename mt payload],
                       toolCalls := [] }]) ∧
    (∀ last, conv.getLast? = some last → last.role = "user" →
        stmtImageExec filename mt payload conv
          = conv.dropLast ++
              [{ last with
                  content := last.content ++ [AiMessagePart.image filename mt payload] }]) := by
  refine ⟨rfl, ?_, rfl, ?_, ?_⟩
  · intro last hl
    simp [stmtIncludeExec, hl]
  · intro last hl hne
    unfold stmtImageExec addMessage
    rw [hl]
    simp [hne]
  · intro last hl hu
    unfold stmtImageExec addMessage
    rw [hl]
    simp [hu]

/-- Witness for C8 at a concrete input: a conversation ending in an
assistant message. -/
theorem c8_include_and_image_witness :
    stmtIncludeExec "data" [{ role := "assistant", content := [], toolCalls := [] }]
      = .ok [{ role := "assistant", content := [AiMessagePart.text "data"],
               toolCalls := [] }] ∧
    stmtImageExec "cat.png" "image/png" "P"
        [{ role := "assistant", content := [], toolCalls := [] }]
      = [{ role := "assistant", content := [], toolCalls := [] },
         { role := "user", content := [AiMessagePart.image "cat.png" "image/png" "P"],
           toolCalls := [] }] := by
  have h := c8_include_and_image "data" "cat.png" "image/png" "P"
      [{ role := "assistant", content := [], toolCalls := [] }]
  exact ⟨(h.2.1 _ rfl).trans rfl, (h.2.2.2.1 _ rfl (by decide)).trans rfl⟩

/-- C6: calling a name that no discovered definition carries raises the
unknown-function error and spawns no subprocess; a known function whose
executable exits 0 returns its trimmed stdout; a non-zero exit raises an
execution error whose text carries the trimmed stderr, or the generic
"Unknown error" when stderr trims to empty. -/
theorem c6_function_space_call (functionArray : List FnDef) (os : ProcOracle)
    (functionName : String) (arguments : List (String × String)) :
    ((∀ d ∈ functionArray, d.name ≠ functionName) →
        functionSpaceCall functionArray os functionName arguments
          = ([], .error (.unknownFunction ("Unknown function '" ++ functionName ++ "'")))) ∧
    (∀ exe, (functionArray.find? (fun d => d.name = functionName)).bind FnDef.executable
          = some exe →
       let r := os exe functionName (jsonDumps arguments)
       (r.exitCode = 0 →
          functionSpaceCall functionArray os functionName arguments
            = ([(exe, functionName, jsonDumps arguments)], .ok (pyStrip r.stdout))) ∧
       (r.exitCode ≠ 0 →
          functionSpaceCall functionArray os functionName arguments
            = ([(exe, functionName, jsonDumps arguments)],
               .error (.execError ("Error executing function '" ++ functionName ++ "': "
                 ++ (if pyStrip r.stderr = "" then "Unknown error" else pyStrip r.stderr)))))) := by
  constructor
  · intro hnone
    have hfind : functionArray.find? (fun d => d.name = functionName) = none := by
      rw [List.find?_eq_none]
      intro d hd
      simpa using hnone d hd
    unfold functionSpaceCall
    rw [hfind]
    rfl
  · intro exe hexe
    constructor
    · intro hz
      unfold functionSpaceCall
      rw [hexe]
      simp [hz]
    · intro hnz
      unfold functionSpaceCall
      rw [hexe]
      simp [hnz]

/-- Witness for C6: a one-entry registry, exercised with an unknown name,
a successful run with padded stdout, and a failing run with empty stderr. -/
theorem c6_function_space_call_witness :
    functionSpaceCall [⟨"echo", some "prompts/functions/tools"⟩]
        (fun _ _ _ => ⟨0, " hi \n", ""⟩) "nosuch" []
      = ([], .error (.unknownFunction "Unknown function 'nosuch'")) ∧
    functionSpaceCall [⟨"echo", some "prompts/functions/tools"⟩]
        (fun _ _ _ => ⟨0, " hi \n", ""⟩) "echo" [("text", "hi")]
      = ([("prompts/functions/tools", "echo", jsonDumps [("text", "hi")])], .ok "hi") ∧
    functionSpaceCall [⟨"echo", some "prompts/functions/tools"⟩]
        (fun _ _ _ => ⟨1, "", "  "⟩) "echo" []
      = ([("prompts/functions/tools", "echo", jsonDumps [])],
         .error (.execError "Error executing function 'echo': Unknown error")) := by
  refine ⟨?_, ?_, ?_⟩
  · exact (c6_function_space_call [⟨"echo", some "prompts/functions/tools"⟩]
      (fun _ _ _ => ⟨0, " hi \n", ""⟩) "nosuch" []).1 (by decide)
  · exact (((c6_function_space_call [⟨"echo", some "prompts/functions/tools"⟩]
      (fun _ _ _ => ⟨0, " hi \n", ""⟩) "echo" [("text", "hi")]).2
        "prompts/functions/tools" rfl).1 rfl).trans rfl
  · exact (((c6_function_space_call [⟨"echo", some "prompts/functions/tools"⟩]
      (fun _ _ _ => ⟨1, "", "  "⟩) "echo" []).2
        "prompts/functions/tools" rfl).2 (by decide)).trans rfl

theorem callFunctions_eq (reg : FnRegistry) (m : AiMessage) :
    callFunctions reg m
      = (if callTriples m = [] then none
         else some { role := "tool",
                     content := (callTriples m).map
                       (fun c => resultForCall reg c.1 c.2.1 c.2.2),
                     toolCalls := [] }) := by
  unfold callFunctions callTriples
  have hmap : m.content.filterMap (fun part =>
      match part with
      | .call name args id => some (resultForCall reg name args id)
      | _ => none)
      = (m.content.filterMap (fun part =>
          match part with
          | AiMessagePart.call name args id => some (name, args, id)
          | _ => none)).map (fun c => resultForCall reg c.1 c.2.1 c.2.2) := by
    rw [List.map_filterMap]
    apply List.filterMap_congr
    intro p _
    cases p <;> rfl
  rw [hmap]
  by_cases h : m.content.filterMap (fun part =>
      match part with
      | AiMessagePart.call name args id => some (name, args, id)
      | _ => none) = []
  · simp [h]
  · simp [h]

/-- C1: every tool-call invocation that raises is caught and converted into
a Result part whose text reports the error (`Error calling {e}`); the calls
of a response message become one tool-role message in call order; and in
`call_llm` that tool message is appended and the loop proceeds to the next
model turn instead of aborting — exercised here with a next turn carrying
no calls, after which the loop returns all three messages. -/
theorem c1_tool_errors_recoverable (reg : FnRegistry) (m : AiMessage)
    (hcalls : callTriples m ≠ []) :
    (∀ name args id e, runDefinedFunction reg name args = .error e →
        resultForCall reg name args id
          = .result name (id.getD "") ("Error calling " ++ e)) ∧
    callFunctions reg m
      = some { role := "tool",
               content := (callTriples m).map
                 (fun c => resultForCall reg c.1 c.2.1 c.2.2),
               toolCalls := [] } ∧
    (∀ stub : Nat → AiMessage, stub 1 = m → callTriples (stub 2) = [] →
        ∀ fuel, callLlm reg stub (fuel + 2)
          = some [m,
                  { role := "tool",
                    content := (callTriples m).map
                      (fun c => resultForCall reg c.1 c.2.1 c.2.2),
                    toolCalls := [] },
                  stub 2]) := by
  refine ⟨?_, ?_, ?_⟩
  · intro name args id e he
    unfold resultForCall
    rw [he]
  · rw [callFunctions_eq]
    simp [hcalls]
  · intro stub h1 h2 fuel
    have e1 : callFunctions reg (stub (0 + 1))
        = some { role := "tool",
                 content := (callTriples m).map
                   (fun c => resultForCall reg c.1 c.2.1 c.2.2),
                 toolCalls := [] } := by
      rw [callFunctions_eq]
      norm_num [h1, hcalls]
    have e2 : callFunctions reg (stub (0 + 1 + 1)) = none := by
      rw [callFunctions_eq]
      norm_num [h2]
    unfold callLlm
    rw [show fuel + 2 = fuel + 1 + 1 from rfl]
    unfold callLlmLoop
    simp only [e1]
    unfold callLlmLoop
    simp only [e2]
    norm_num [h1]

/-- Witness for C1: a registry whose only function raises, and a model
message requesting exactly that call; the loop returns the error Result fed
back as a tool message followed by the final assistant turn. -/
theorem c1_tool_errors_recoverable_witness :
    callLlm
        (fun n => if n = "boom" then
            some (fun _ => Except.error "FileNotFoundError: missing.txt") else none)
        (fun n => if n = 1 then
            { role := "assistant",
              content := [AiMessagePart.call "boom" [] (some "id1")], toolCalls := [] }
          else { role := "assistant",
                 content := [AiMessagePart.text "done"], toolCalls := [] })
        2
      = some [{ role := "assistant",
                content := [AiMessagePart.call "boom" [] (some "id1")], toolCalls := [] },
              { role := "tool",
                content := [AiMessagePart.result "boom" "id1"
                  "Error calling FileNotFoundError: missing.txt"], toolCalls := [] },
              { role := "assistant",
                content := [AiMessagePart.text "done"], toolCalls := [] }] := by
  have h := (c1_tool_errors_recoverable
      (fun n => if n = "boom" then
          some (fun _ => Except.error "FileNotFoundError: missing.txt") else none)
      { role := "assistant",
        content := [AiMessagePart.call "boom" [] (some "id1")], toolCalls := [] }
      (by decide)).2.2
      (fun n => if n = 1 then
          { role := "assistant",
            content := [AiMessagePart.call "boom" [] (some "id1")], toolCalls := [] }
        else { role := "assistant",
               content := [AiMessagePart.text "done"], toolCalls := [] })
      rfl (by decide) 0
  exact h.trans (by rfl)

/-- Counterexample for C5: with a stub provider returning exactly one call
on the first turn and zero calls on the second, `call_llm` returns three
appended messages, not two — the final assistant turn is also appended and
returned. -/
theorem c5_two_messages_counterexample :
    (callLlm
        (fun n => if n = "readfile" then some (fun _ => Except.ok "contents") else none)
        (fun n => if n = 1 then
            { role := "assistant",
              content := [AiMessagePart.call "readfile" [("filename", "a.txt")] (some "c1")],
              toolCalls := [] }
          else { role := "assistant",
                 content := [AiMessagePart.text "done"], toolCalls := [] })
        2).map List.length ≠ some 2 ∧
    (callLlm
        (fun n => if n = "readfile" then some (fun _ => Except.ok "contents") else none)
        (fun n => if n = 1 then
            { role := "assistant",
              content := [AiMessagePart.call "readfile" [("filename", "a.txt")] (some "c1")],
              toolCalls := [] }
          else { role := "assistant",
                 content := [AiMessagePart.text "done"], toolCalls := [] })
        2).map List.length = some 3 := by
  constructor
  · decide
  · decide

/-- C5 (amended): against a stub that returns exactly one call on the first
turn and zero calls on the second, the loop terminates (for any fuel budget
of at least two iterations) and returns exactly three appended messages:
the assistant message with the call, the tool message with its result, and
the final zero-call assistant message. -/
theorem c5_tool_loop_termination (reg : FnRegistry) (stub : Nat → AiMessage)
    (c : String × List (String × String) × Option String)
    (h1 : callTriples (stub 1) = [c]) (h2 : callTriples (stub 2) = []) :
    ∀ fuel, callLlm reg stub (fuel + 2)
      = some [stub 1,
              { role := "tool", content := [resultForCall reg c.1 c.2.1 c.2.2],
                toolCalls := [] },
              stub 2] := by
  intro fuel
  have e1 : callFunctions reg (stub (0 + 1))
      = some { role := "tool", content := [resultForCall reg c.1 c.2.1 c.2.2],
               toolCalls := [] } := by
    rw [callFunctions_eq]
    norm_num [h1]
  have e2 : callFunctions reg (stub (0 + 1 + 1)) = none := by
    rw [callFunctions_eq]
    norm_num [h2]
  unfold callLlm
  rw [show fuel + 2 = fuel + 1 + 1 from rfl]
  unfold callLlmLoop
  simp only [e1]
  unfold callLlmLoop
  simp only [e2]
  norm_num

/-- Witness for C5 at the concrete stub of the counterexample. -/
theorem c5_tool_loop_termination_witness :
    callLlm
        (fun n => if n = "readfile" then some (fun _ => Except.ok "contents") else none)
        (fun n => if n = 1 then
            { role := "assistant",
              content := [AiMessagePart.call "readfile" [("filename", "a.txt")] (some "c1")],
              toolCalls := [] }
          else { role := "assistant",
                 content := [AiMessagePart.text "done"], toolCalls := [] })
        2
      = some [{ role := "assistant",
                content := [AiMessagePart.call "readfile" [("filename", "a.txt")] (some "c1")],
                toolCalls := [] },
              { role := "tool",
                content := [AiMessagePart.result "readfile" "c1" "contents"],
                toolCalls := [] },
              { role := "assistant",
                content := [AiMessagePart.text "done"], toolCalls := [] }] := by
  have h := c5_tool_loop_termination
      (fun n => if n = "readfile" then some (fun _ => Except.ok "contents") else none)
      (fun n => if n = 1 then
          { role := "assistant",
            content := [AiMessagePart.call "readfile" [("filename", "a.txt")] (some "c1")],
            toolCalls := [] }
        else { role := "assistant",
               content := [AiMessagePart.text "done"], toolCalls := [] })
      ("readfile", [("filename", "a.txt")], some "c1") (by decide) (by decide) 0
  exact h.trans (by rfl)

/-- C9, evaluated at the failing input: `calculate_cost` itself satisfies
the claimed price formula (the spec example gives 0.007), but the VM
counters updated by `StmtExec.execute` do not — after two interactions each
reporting 1000 input and 500 output tokens at the spec's example rates, the
code's token counter reads 3000 instead of the 2000 tokens consumed, and
its accumulated cost is 0.028, not the claimed
`2000 * 0.000002 + 1000 * 0.00001 = 0.014`. -/
theorem c9_cost_counters_bug :
    calculateCost 0.000002 0.00001 1000 500 = 0.007 ∧
    (runExecCounters 0.000002 0.00001 [(1000, 500), (1000, 500)]
        ⟨0, 0, 0, 0, 0, 0, 0⟩).toksIn = 3000 ∧
    (runExecCounters 0.000002 0.00001 [(1000, 500), (1000, 500)]
          ⟨0, 0, 0, 0, 0, 0, 0⟩).costIn
        + (runExecCounters 0.000002 0.00001 [(1000, 500), (1000, 500)]
          ⟨0, 0, 0, 0, 0, 0, 0⟩).costOut
      ≠ calculateCost 0.000002 0.00001 2000 1000 := by
  refine ⟨?_, ?_, ?_⟩
  · norm_num [calculateCost]
  · norm_num [runExecCounters, execInteraction]
  · norm_num [runExecCounters, execInteraction, calculateCost]

/-- Counterexample for C4: an Anthropic `thinking` part and a Google part
with neither recognized key are silently dropped — the parsers return an
assistant message with empty content instead of raising an error. -/
theorem c4_unknown_parts_counterexample :
    anthropicToAiMessage [{ ptype := "thinking", text := "hmm" }]
      = { role := "assistant", content := [], toolCalls := [] } ∧
    googleToAiMessage [[{ text := none, functionCall := none }]]
      = .ok { role := "assistant", content := [], toolCalls := [] } := by
  exact ⟨rfl, rfl⟩

/-- C4 (amended): a content part whose type is neither a text part nor a
tool-call part is silently skipped by both response parsers — inserting it
anywhere leaves the parsed message unchanged and raises nothing; the only
error either parser raises is Google's empty-candidates check. -/
theorem c4_unknown_parts_skipped
    (pre post : List AnthropicPart) (p : AnthropicPart)
    (hp : p.ptype ≠ "text" ∧ p.ptype ≠ "tool_use")
    (gpre gpost : List GooglePart) (rest : List (List GooglePart))
    (candidates : List (List GooglePart)) :
    anthropicToAiMessage (pre ++ [p] ++ post) = anthropicToAiMessage (pre ++ post) ∧
    googleToAiMessage ((gpre ++ [{ text := none, functionCall := none }] ++ gpost) :: rest)
      = googleToAiMessage ((gpre ++ gpost) :: rest) ∧
    (googleToAiMessage candidates
        = .error "No response candidates received from Google API"
      ↔ candidates = []) := by
  refine ⟨?_, ?_, ?_⟩
  · unfold anthropicToAiMessage
    simp [List.filterMap_append, hp.1, hp.2]
  · unfold googleToAiMessage
    simp [List.filterMap_append]
  · constructor
    · intro h
      cases candidates with
      | nil => rfl
      | cons c cs => simp [googleToAiMessage] at h
    · intro h
      subst h
      rfl

/-- Witness for C4 at a concrete unrecognized part. -/
theorem c4_unknown_parts_skipped_witness :
    anthropicToAiMessage
        [{ ptype := "text", text := "hi" }, { ptype := "thinking", text := "?" }]
      = anthropicToAiMessage [{ ptype := "text", text := "hi" }] ∧
    googleToAiMessage [[{ text := some "hi" }, { text := none, functionCall := none }]]
      = googleToAiMessage [[{ text := some "hi" }]] := by
  have h := c4_unknown_parts_skipped
      [{ ptype := "text", text := "hi" }] [] { ptype := "thinking", text := "?" }
      (by decide) [{ text := some "hi" }] [] [] []
  exact ⟨h.1, h.2.1⟩

/-- Counterexample for C10: the script `hello\n.execute\n` parses
successfully, but because its last line begins with the five characters
".exec" (although `.execute` is not a valid keyword and lexes into a
`.text` continuation), no implicit execute-turn statement is appended: the
parsed program is a single `.text` statement and contains no `.exec`
statement at all. -/
theorem c10_implicit_exec_counterexample :
    parsePrompt ["hello\n", ".execute\n"]
      = .ok [⟨".text", "hello\n.execute"⟩] ∧
    Except.map (List.map Stmt.keyword) (parsePrompt ["hello\n", ".execute\n"])
      = .ok [".text"] := by
  exact ⟨by decide, by decide⟩

theorem mem_of_getLast? {α : Type} {l : List α} {a : α}
    (h : l.getLast? = some a) : a ∈ l := by
  induction l with
  | nil => simp at h
  | cons x xs ih =>
      cases xs with
      | nil => simp_all
      | cons y ys =>
          rw [List.getLast?_cons_cons] at h
          exact List.mem_cons_of_mem x (ih h)

theorem splitFirstSpace_eq (cs : List Char) (k v : List Char)
    (h : splitFirstSpace cs = some (k, v)) : cs = k ++ ' ' :: v := by
  induction cs generalizing k v with
  | nil => simp [splitFirstSpace] at h
  | cons c rest ih =>
      unfold splitFirstSpace at h
      by_cases hc : c = ' '
      · rw [if_pos hc] at h
        simp only [Option.some.injEq, Prod.mk.injEq] at h
        rw [← h.1, ← h.2, hc]
        rfl
      · rw [if_neg hc] at h
        cases hs : splitFirstSpace rest with
        | none => rw [hs] at h; cases h
        | some p =>
            rw [hs, Option.map_some'] at h
            cases h
            have := ih p.1 p.2 hs
            simp [this]

theorem lexLine_exec_take (l : String)
    (h : (lexLine l).keyword = ".exec") : l.data.take 5 = ".exec".data := by
  unfold lexLine at h
  split at h
  · simp at h
  · rename_i c cs hd
    split at h
    · split at h
      · rename_i p hs
        split at h
        · have hp1 : p.1 = ".exec".data := congrArg String.data h
          have heq := splitFirstSpace_eq l.data p.1 p.2 hs
          rw [hp1] at heq
          rw [heq]
          have h5 : (".exec".data ++ ' ' :: p.2).take (".exec".data.length)
              = ".exec".data := List.take_left _ _
          exact h5
        · simp at h
      · split at h
        · rename_i hmem
          have hl : l = ".exec" := h
          rw [hl]
          rfl
        · simp at h
    · simp at h

theorem parseBody_no_exec (ls : List String) :
    ∀ lno stmts out,
      (∀ l ∈ ls, (lexLine (pyStrip l)).keyword ≠ ".exec") →
      (∀ s ∈ stmts, s.keyword ≠ ".exec") →
      parseBody ls lno stmts = .ok out →
      ∀ s ∈ out, s.keyword ≠ ".exec" := by
  induction ls with
  | nil =>
      intro lno stmts out _ hst h
      cases h
      exact hst
  | cons line rest ih =>
      intro lno stmts out hls hst h
      have hline := hls line (by simp)
      have hrest : ∀ l ∈ rest, (lexLine (pyStrip l)).keyword ≠ ".exec" :=
        fun l hl => hls l (List.mem_cons_of_mem line hl)
      unfold parseBody at h
      split at h
      · exact ih (lno + 1) stmts out hrest hst h
      · split at h
        · split at h
          · cases h
          · rename_i last hlast
            have hlastmem : last ∈ stmts := mem_of_getLast? hlast
            split at h
            · refine ih (lno + 1) _ out hrest ?_ h
              intro s hs
              rcases List.mem_append.mp hs with hs1 | hs2
              · exact hst s ((List.dropLast_sublist stmts).subset hs1)
              · rw [List.mem_singleton] at hs2
                rw [hs2]
                exact hst last hlastmem
            · refine ih (lno + 1) _ out hrest ?_ h
              intro s hs
              rcases List.mem_append.mp hs with hs1 | hs2
              · exact hst s hs1
              · rw [List.mem_singleton] at hs2
                rw [hs2]
                exact hline
        · refine ih (lno + 1) _ out hrest ?_ h
          intro s hs
          rcases List.mem_append.mp hs with hs1 | hs2
          · exact hst s hs1
          · rw [List.mem_singleton] at hs2
            rw [hs2]
            exact hline

theorem popTrailingRev_subset (r : List String) (out : List String)
    (h : popTrailingRev r = some out) : out ⊆ r := by
  induction r generalizing out with
  | nil => simp [popTrailingRev] at h
  | cons l rest ih =>
      unfold popTrailingRev at h
      split at h
      · cases h
      · split at h
        · exact (ih out h).trans (List.subset_cons_self l rest)
        · cases h
          exact List.Subset.refl _

theorem popTrailing_subset (lines ls : List String)
    (h : popTrailing lines = some ls) : ls ⊆ lines := by
  unfold popTrailing at h
  cases hr : popTrailingRev lines.reverse with
  | none => rw [hr] at h; cases h
  | some out =>
      rw [hr, Option.map_some'] at h
      cases h
      intro x hx
      have hxo : x ∈ out := List.mem_reverse.mp hx
      exact List.mem_reverse.mp (popTrailingRev_subset _ _ hr hxo)

/-- C10 (amended): whenever the last surviving line's first five characters
are not ".exec", the parser appends the implicit execute-turn statement, so
the program ends with a `.exec` statement; and a script none of whose lines
begins with ".exec" (raw or stripped) parses to a program that ends with
`.exec` and contains exactly one `.exec` statement.  The claim's further
step — that therefore EVERY parsed program ends with an execute-turn
statement — fails for last lines that begin with the characters ".exec" but
do not lex as the `.exec` keyword (see the counterexample). -/
theorem c10_implicit_exec (lines : List String) (stmts : List Stmt)
    (hok : parsePrompt lines = .ok stmts) :
    (∀ ls lastLine, popTrailing lines = some ls → ls.getLast? = some lastLine →
        lastLine.data.take 5 ≠ ".exec".data →
        stmts ≠ [] ∧ stmts.getLast? = some ⟨".exec", ""⟩) ∧
    ((∀ l ∈ lines, l.data.take 5 ≠ ".exec".data ∧
        (pyStrip l).data.take 5 ≠ ".exec".data) →
      stmts.getLast? = some ⟨".exec", ""⟩ ∧
      stmts.countP (fun s => s.keyword == ".exec") = 1) := by
  unfold parsePrompt at hok
  split at hok
  · cases hok
  · rename_i ls hpop
    split at hok
    · cases hok
    · rename_i body hbody
      split at hok
      · cases hok
      · rename_i lastLine hlast
        have hnoexec : (∀ l ∈ lines, l.data.take 5 ≠ ".exec".data ∧
              (pyStrip l).data.take 5 ≠ ".exec".data) →
            ∀ s ∈ body, s.keyword ≠ ".exec" := by
          intro hall
          refine parseBody_no_exec ls 0 [] body ?_ (by simp) hbody
          intro l hl hex
          have hmem : l ∈ lines := popTrailing_subset lines ls hpop hl
          exact (hall l hmem).2 (lexLine_exec_take (pyStrip l) hex)
        split at hok
        · -- last line begins with ".exec": no implicit statement appended
          rename_i hx
          cases hok
          constructor
          · intro ls2 lastLine2 hpop2 hlast2 hne
            rw [hpop] at hpop2
            cases hpop2
            rw [hlast] at hlast2
            cases hlast2
            exact absurd hx hne
          · intro hall
            have hmem : lastLine ∈ lines :=
              popTrailing_subset lines ls hpop (mem_of_getLast? hlast)
            exact absurd hx (hall lastLine hmem).1
        · cases hok
          constructor
          · intro ls2 lastLine2 hpop2 hlast2 hne
            constructor
            · simp
            · exact List.getLast?_concat _
          · intro hall
            constructor
            · exact List.getLast?_concat _
            · rw [List.countP_append]
              have h0 : body.countP (fun s => s.keyword == ".exec") = 0 := by
                rw [List.countP_eq_zero]
                intro s hs
                simpa using hnoexec hall s hs
              rw [h0]
              rfl

/-- Witness for C10: the one-line script `Hello\n`, which never mentions
`.exec`, parses to a program ending in — and containing exactly one —
implicit `.exec` statement. -/
theorem c10_implicit_exec_witness :
    ([⟨".text", "Hello"⟩, ⟨".exec", ""⟩] : List Stmt).getLast?
        = some ⟨".exec", ""⟩ ∧
    ([⟨".text", "Hello"⟩, ⟨".exec", ""⟩] : List Stmt).countP
        (fun s => s.keyword == ".exec") = 1 :=
  (c10_implicit_exec ["Hello\n"] [⟨".text", "Hello"⟩, ⟨".exec", ""⟩]
      (by decide)).2 (by decide)

theorem substFuel_succ (d : List (String × VVal)) (n : Nat) (t : List Char) :
    substFuel d (n + 1) t
      = match substStep d t with
        | .done t2 => some (.ok t2)
        | .err keys => some (.error keys)
        | .cont t2 => substFuel d n t2 := rfl

@[simp] theorem count2_nil (a b : Char) : count2 a b [] = 0 := rfl

@[simp] theorem count2_single (a b c : Char) : count2 a b [c] = 0 := rfl

theorem count2_cons_cons (a b c d : Char) (rest : List Char) :
    count2 a b (c :: d :: rest)
      = (if c = a ∧ d = b then 1 else 0) + count2 a b (d :: rest) := rfl

theorem count2_cons_ne (a b c : Char) (hca : c ≠ a) (ys : List Char) :
    count2 a b (c :: ys) = count2 a b ys := by
  cases ys with
  | nil => rfl
  | cons d rest => rw [count2_cons_cons]; simp [hca]

theorem count2_append (a b : Char) (xs ys : List Char) :
    count2 a b (xs ++ ys)
      = count2 a b xs + count2 a b ys
        + (if xs.getLast? = some a ∧ ys.head? = some b then 1 else 0) := by
  induction xs with
  | nil => simp
  | cons c xs ih =>
      cases xs with
      | nil =>
          cases ys with
          | nil => simp
          | cons e ys2 =>
              simp only [List.singleton_append, count2_cons_cons, count2_single,
                List.getLast?_singleton, List.head?_cons, Option.some.injEq]
              split_ifs <;> omega
      | cons d xs2 =>
          simp only [List.cons_append] at ih ⊢
          rw [count2_cons_cons, ih, count2_cons_cons, List.getLast?_cons_cons]
          split_ifs <;> omega

theorem count2_eq_zero_of_not_mem (a b : Char) (cs : List Char)
    (h : a ∉ cs) : count2 a b cs = 0 := by
  induction cs with
  | nil => rfl
  | cons c rest ih =>
      cases rest with
      | nil => rfl
      | cons d rest2 =>
          rw [count2_cons_cons]
          have hca : ¬(c = a ∧ d = b) := by
            rintro ⟨rfl, -⟩
            exact h (List.mem_cons_self c _)
          rw [if_neg hca, ih (fun hm => h (List.mem_cons_of_mem c hm))]

theorem splitAtFirst2_none_iff (a b : Char) (cs : List Char) :
    splitAtFirst2 a b cs = none ↔ count2 a b cs = 0 := by
  induction cs with
  | nil => simp [splitAtFirst2]
  | cons c rest ih =>
      cases rest with
      | nil => simp [splitAtFirst2]
      | cons d rest2 =>
          rw [count2_cons_cons]
          show (if c = a ∧ d = b then some ([], rest2)
              else (splitAtFirst2 a b (d :: rest2)).map
                (fun p => (c :: p.1, p.2))) = none ↔ _
          by_cases hcd : c = a ∧ d = b
          · simp [hcd]
          · simp [hcd, ih]

theorem count2_cons_eq_zero (a b c : Char) (f : List Char)
    (hf : count2 a b f = 0) (hcf : ¬(c = a ∧ f.head? = some b)) :
    count2 a b (c :: f) = 0 := by
  cases f with
  | nil => rfl
  | cons d rest =>
      rw [count2_cons_cons]
      have hcd : ¬(c = a ∧ d = b) := by simpa using hcf
      rw [if_neg hcd, hf]

theorem splitAtFirst2_eq (a b : Char) (t f bk : List Char)
    (h : splitAtFirst2 a b t = some (f, bk)) :
    t = f ++ a :: b :: bk ∧ count2 a b f = 0 := by
  induction t generalizing f bk with
  | nil => simp [splitAtFirst2] at h
  | cons c rest ih =>
      cases rest with
      | nil => simp [splitAtFirst2] at h
      | cons d rest2 =>
          have hh : (if c = a ∧ d = b then some (([] : List Char), rest2)
              else (splitAtFirst2 a b (d :: rest2)).map
                (fun p => (c :: p.1, p.2))) = some (f, bk) := h
          by_cases hcd : c = a ∧ d = b
          · rw [if_pos hcd] at hh
            cases hh
            exact ⟨by simp [hcd.1, hcd.2], rfl⟩
          · rw [if_neg hcd] at hh
            cases hs : splitAtFirst2 a b (d :: rest2) with
            | none => rw [hs] at hh; cases hh
            | some p =>
                rw [hs, Option.map_some'] at hh
                cases hh
                obtain ⟨heq, hcount⟩ := ih p.1 p.2 hs
                refine ⟨by rw [List.cons_append, ← heq], ?_⟩
                refine count2_cons_eq_zero a b c p.1 hcount ?_
                rintro ⟨hca, hhead⟩
                cases hp : p.1 with
                | nil => rw [hp] at hhead; simp at hhead
                | cons x xs =>
                    rw [hp] at hhead heq
                    simp only [List.head?_cons, Option.some.injEq] at hhead
                    have hx : x = d := ((List.cons.injEq _ _ _ _).mp heq).1.symm
                    rw [hx] at hhead
                    exact hcd ⟨hca, hhead⟩

theorem splitAtLast2_eq (a b : Char) (t p q : List Char)
    (h : splitAtLast2 a b t = some (p, q)) : t = p ++ a :: b :: q := by
  induction t generalizing p q with
  | nil => simp [splitAtLast2] at h
  | cons c rest ih =>
      cases rest with
      | nil => simp [splitAtLast2] at h
      | cons d rest2 =>
          have hh : (match splitAtLast2 a b (d :: rest2) with
              | some pr => some (c :: pr.1, pr.2)
              | none => if c = a ∧ d = b then some (([] : List Char), rest2)
                        else none) = some (p, q) := h
          cases hs : splitAtLast2 a b (d :: rest2) with
          | some pr =>
              rw [hs] at hh
              cases hh
              have := ih pr.1 pr.2 hs
              simp [this]
          | none =>
              rw [hs] at hh
              by_cases hcd : c = a ∧ d = b
              · rw [if_pos hcd] at hh
                cases hh
                simp [hcd.1, hcd.2]
              · rw [if_neg hcd] at hh
                cases hh

theorem substStep_cont_decreases (d : List (String × VVal))
    (hd : RenderSafe d) (t t2 : List Char)
    (h : substStep d t = .cont t2) :
    count2 ']' '>' t2 < count2 ']' '>' t := by
  unfold substStep at h
  cases h1 : splitAtFirst2 ']' '>' t with
  | none => simp only [h1] at h; cases h
  | some fb =>
      simp only [h1] at h
      cases h2 : splitAtLast2 '<' '[' fb.1 with
      | none => simp only [h2] at h; cases h
      | some pn =>
          simp only [h2] at h
          cases h3 : lookupPath (.dict d) (splitOnDot pn.2) with
          | none => simp only [h3] at h; cases h
          | some v =>
              simp only [h3, SubstRes.cont.injEq] at h
              subst h
              obtain ⟨hteq, hfzero⟩ := splitAtFirst2_eq ']' '>' t fb.1 fb.2 h1
              have hfront : fb.1 = pn.1 ++ '<' :: '[' :: pn.2 :=
                splitAtLast2_eq '<' '[' fb.1 pn.1 pn.2 h2
              obtain ⟨hrne, hrfree⟩ := hd (splitOnDot pn.2) v h3
              have hnotmem : ']' ∉ render v := fun hm => ((hrfree _ hm).2.2.1) rfl
              have hrzero : count2 ']' '>' (render v) = 0 :=
                count2_eq_zero_of_not_mem _ _ _ hnotmem
              -- the old text has exactly one more occurrence than `back`
              have hold : count2 ']' '>' t = 1 + count2 ']' '>' fb.2 := by
                rw [hteq, count2_append, hfzero, count2_cons_cons,
                  count2_cons_ne ']' '>' '>' (by decide) fb.2]
                have : ¬(fb.1.getLast? = some ']'
                    ∧ (']' :: '>' :: fb.2).head? = some '>') := by
                  rintro ⟨-, hcontra⟩
                  simp at hcontra
                simp [this]
              -- the pre-placeholder slice has no occurrence
              have hpre : count2 ']' '>' pn.1 = 0 := by
                have := count2_append ']' '>' pn.1 ('<' :: '[' :: pn.2)
                rw [← hfront, hfzero] at this
                omega
              -- the new text has exactly the occurrences of `back`
              have hnew : count2 ']' '>' (pn.1 ++ render v ++ fb.2)
                  = count2 ']' '>' fb.2 := by
                rw [List.append_assoc, count2_append ']' '>' pn.1,
                  count2_append ']' '>' (render v), hpre, hrzero]
                have hb2 : ¬((render v).getLast? = some ']'
                    ∧ fb.2.head? = some '>') := by
                  rintro ⟨hcontra, -⟩
                  exact hnotmem (mem_of_getLast? hcontra)
                have hb3 : ¬(pn.1.getLast? = some ']'
                    ∧ ((render v) ++ fb.2).head? = some '>') := by
                  rintro ⟨-, hcontra⟩
                  cases hr : render v with
                  | nil => exact hrne hr
                  | cons x xs =>
                      rw [hr] at hcontra
                      simp only [List.cons_append, List.head?_cons,
                        Option.some.injEq] at hcontra
                      have := (hrfree x (by rw [hr]; exact List.mem_cons_self x xs)).2.2.2
                      exact this hcontra
                rw [if_neg hb2, if_neg hb3]
                omega
              rw [hnew, hold]
              omega

theorem substFuel_total (d : List (String × VVal)) (hd : RenderSafe d) :
    ∀ n t, count2 ']' '>' t < n → ∃ r, substFuel d n t = some r := by
  intro n
  induction n with
  | zero => intro t h; omega
  | succ n ih =>
      intro t h
      rw [substFuel_succ]
      cases hs : substStep d t with
      | done t2 => exact ⟨.ok t2, rfl⟩
      | err keys => exact ⟨.error keys, rfl⟩
      | cont t2 =>
          have hdec := substStep_cont_decreases d hd t t2 hs
          exact ih t2 (by omega)

theorem substStep_done_of_no_placeholder (d : List (String × VVal))
    (t : List Char) (h : ¬ HasPlaceholder t) :
    substStep d t = .done t := by
  unfold substStep
  cases h1 : splitAtFirst2 ']' '>' t with
  | none => rfl
  | some fb =>
      simp only [h1]
      cases h2 : splitAtLast2 '<' '[' fb.1 with
      | none => simp only [h2]
      | some pn =>
          exfalso
          apply h
          obtain ⟨hteq, -⟩ := splitAtFirst2_eq ']' '>' t fb.1 fb.2 h1
          have hf := splitAtLast2_eq '<' '[' fb.1 pn.1 pn.2 h2
          refine ⟨pn.1, pn.2, fb.2, ?_⟩
          rw [hteq, hf]

theorem substStep_err_of_lookup_none (d : List (String × VVal)) (t : List Char)
    (fb pn : List Char × List Char)
    (h1 : splitAtFirst2 ']' '>' t = some fb)
    (h2 : splitAtLast2 '<' '[' fb.1 = some pn)
    (h3 : lookupPath (.dict d) (splitOnDot pn.2) = none) :
    substStep d t = .err (splitOnDot pn.2) := by
  unfold substStep
  simp only [h1, h2, h3]

/-- Counterexample for C3: with variable `a` bound to the string
`"<[a]>"`, substituting the text `"<[a]>"` loops forever — one loop
iteration rewrites the text to itself, so `substitute` never returns for
any iteration budget, refuting the claim that substitution terminates for
every input string and variable mapping. -/
theorem c3_substitute_counterexample :
    substStep [("a", VVal.str "<[a]>")] "<[a]>".data
      = SubstRes.cont ("<[a]>".data) ∧
    ¬ ∃ n r, substFuel [("a", VVal.str "<[a]>")] n ("<[a]>".data) = some r := by
  have hstep : substStep [("a", VVal.str "<[a]>")] "<[a]>".data
      = SubstRes.cont ("<[a]>".data) := by decide
  refine ⟨hstep, ?_⟩
  rintro ⟨n, r, hn⟩
  have hnone : ∀ m, substFuel [("a", VVal.str "<[a]>")] m ("<[a]>".data) = none := by
    intro m
    induction m with
    | zero => rfl
    | succ m ih => rw [substFuel_succ, hstep]; exact ih
  rw [hnone n] at hn
  cases hn

/-- C3 (amended): `substitute` resolves each placeholder by dotted-path
lookup and, provided every value reachable by dotted-path lookup renders to
a non-empty string without placeholder-marker characters, it terminates on
every input (unrestricted termination is refuted by the counterexample).
Unconditionally, for every variable mapping: a string containing no
placeholder is returned unchanged after one loop test; whenever the
referenced variable's dotted path fails to resolve — any path segment
missing — substitution raises the undefined-variable error instead of
returning; substituting `"<[a]><[b]>"` under `{a: "1", b: "2"}` yields
`"12"`; and the spec's `"<[missing]>"` example raises under the empty
mapping. -/
theorem c3_substitute (d : List (String × VVal)) (t : List Char)
    (hd : RenderSafe d) :
    (∃ r, substFuel d (count2 ']' '>' t + 1) t = some r) ∧
    (∀ (d2 : List (String × VVal)) (t2 : List Char), ¬ HasPlaceholder t2 →
        substFuel d2 1 t2 = some (.ok t2)) ∧
    (∀ (d2 : List (String × VVal)) (t2 : List Char)
        (fb pn : List Char × List Char),
        splitAtFirst2 ']' '>' t2 = some fb →
        splitAtLast2 '<' '[' fb.1 = some pn →
        lookupPath (.dict d2) (splitOnDot pn.2) = none →
        ∀ n, substFuel d2 (n + 1) t2 = some (.error (splitOnDot pn.2))) ∧
    substFuel [("a", VVal.str "1"), ("b", VVal.str "2")] 3 "<[a]><[b]>".data
      = some (.ok "12".data) ∧
    substFuel [] 1 "<[missing]>".data = some (.error ["missing".data]) := by
  refine ⟨substFuel_total d hd _ t (by omega), ?_, ?_, by decide, by decide⟩
  · intro d2 t2 h
    rw [show (1 : Nat) = 0 + 1 from rfl, substFuel_succ,
      substStep_done_of_no_placeholder d2 t2 h]
  · intro d2 t2 fb pn h1 h2 h3 n
    rw [substFuel_succ, substStep_err_of_lookup_none d2 t2 fb pn h1 h2 h3]

/-- Evaluation of the Python repr of the example dictionary. -/
theorem render_example_dict :
    render (VVal.dict [("a", VVal.str "1"), ("b", VVal.str "2")])
      = "\x7b'a': '1', 'b': '2'\x7d".data := by
  simp [render, renderEntries, renderKV, reprVal]

/-- The `{a: "1", b: "2"}` mapping of the spec's substitution example is
render-safe: the only values dotted-path lookup can reach are the two
one-character leaves and the dictionary itself. -/
theorem renderSafe_example :
    RenderSafe [("a", VVal.str "1"), ("b", VVal.str "2")] := by
  intro keys v h
  have hv : v = VVal.dict [("a", VVal.str "1"), ("b", VVal.str "2")]
      ∨ v = VVal.str "1" ∨ v = VVal.str "2" := by
    cases keys with
    | nil =>
        left
        exact (Option.some.inj h).symm
    | cons k rest =>
        unfold lookupPath at h
        by_cases ha : String.mk k = "a"
        · rw [ha] at h
          simp only [List.lookup, show (("a" : String) == "a") = true from rfl] at h
          cases rest with
          | nil => right; left; exact (Option.some.inj h).symm
          | cons k2 rest2 => simp [lookupPath] at h
        · by_cases hb : String.mk k = "b"
          · rw [hb] at h
            simp only [List.lookup, show (("b" : String) == "a") = false from rfl,
              show (("b" : String) == "b") = true from rfl] at h
            cases rest with
            | nil => right; right; exact (Option.some.inj h).symm
            | cons k2 rest2 => simp [lookupPath] at h
          · have ha2 : (String.mk k == "a") = false := beq_eq_false_iff_ne.mpr ha
            have hb2 : (String.mk k == "b") = false := beq_eq_false_iff_ne.mpr hb
            simp only [List.lookup, ha2, hb2] at h
            cases h
  rcases hv with rfl | rfl | rfl
  · constructor
    · rw [render_example_dict]; decide
    · rw [render_example_dict]; decide
  · exact ⟨by decide, by decide⟩
  · exact ⟨by decide, by decide⟩

/-- Witness for C3: termination at the mapping `{a: "1", b: "2"}` and the
spec's example text; the placeholder-free text `"hello world"` returned
unchanged under the empty mapping; the error raised when the second path
segment of `"<[a.x]>"` fails to resolve; and the two concrete spec
examples. -/
theorem c3_substitute_witness :
    (∃ r, substFuel [("a", VVal.str "1"), ("b", VVal.str "2")]
        (count2 ']' '>' "<[a]><[b]>".data + 1) "<[a]><[b]>".data = some r) ∧
    substFuel [] 1 "hello world".data = some (.ok "hello world".data) ∧
    substFuel [("a", VVal.str "1"), ("b", VVal.str "2")] 1 "<[a.x]>".data
      = some (.error ["a".data, "x".data]) ∧
    substFuel [("a", VVal.str "1"), ("b", VVal.str "2")] 3 "<[a]><[b]>".data
      = some (.ok "12".data) ∧
    substFuel [] 1 "<[missing]>".data = some (.error ["missing".data]) := by
  have h := c3_substitute [("a", VVal.str "1"), ("b", VVal.str "2")]
      "<[a]><[b]>".data renderSafe_example
  refine ⟨h.1, ?_, ?_, h.2.2.2.1, h.2.2.2.2⟩
  · refine h.2.1 [] "hello world".data ?_
    rintro ⟨u, v, w, hw⟩
    have hmem : '<' ∈ "hello world".data := by
      rw [hw]; simp
    exact absurd hmem (by decide)
  · exact h.2.2.1 [("a", VVal.str "1"), ("b", VVal.str "2")]
      "<[a.x]>".data ("<[a.x".data, ([] : List Char))
      (([] : List Char), "a.x".data) rfl rfl rfl 0

end Keprompt
